import Mathlib

/-!
Verification of the user-repository core of Large-Scale-Discovery
(`web_backend/database/database_user.go`).

Strings are modelled as lists of Unicode code points (`List Nat`); Go's
`strings.ToLower` / `strings.ToUpper` are modelled on the ASCII range, which
covers every case-folding the code relies on.  The bluemonday
`StrictPolicy` sanitizer is modelled as a tag-stripping state machine
(strict "no HTML allowed": a tag is removed, not escaped).  The relational
store is modelled as a list of user rows, and each repository operation is
explicit state passing; a `fault : Bool` input stands for an arbitrary
backend fault of the storage layer.
-/

/-- Strings as lists of Unicode code points. -/
abbrev Str := List Nat

/-- Convert a Lean string literal to the code-point model, for concrete tests. -/
def str (s : String) : Str := s.data.map Char.toNat

/-- ASCII lower-casing of one code point (model of Go `strings.ToLower`). -/
def lowerN (c : Nat) : Nat := if 65 ≤ c ∧ c ≤ 90 then c + 32 else c

/-- ASCII upper-casing of one code point (model of Go `strings.ToUpper`). -/
def upperN (c : Nat) : Nat := if 97 ≤ c ∧ c ≤ 122 then c - 32 else c

/-- Lower-case a whole string. -/
def toLowerStr (s : Str) : Str := s.map lowerN

/-- Upper-case a whole string. -/
def toUpperStr (s : Str) : Str := s.map upperN

/-- Tag-stripping state machine: the `Bool` says whether we are inside a
`<...>` tag.  Outside a tag, `<` (code 60) enters a tag and is dropped;
inside a tag every character up to and including the closing `>` (code 62)
is dropped. -/
def stripTagsAux : Bool → Str → Str
  | _, [] => []
  | false, c :: rest =>
    if c = 60 then stripTagsAux true rest else c :: stripTagsAux false rest
  | true, c :: rest =>
    if c = 62 then stripTagsAux false rest else stripTagsAux true rest

/-- Modelled from the spec: `bluemonday.StrictPolicy().Sanitize`, the strict
"no HTML allowed" policy — any tag or attribute is removed, not escaped
(the sanitizer library itself is an external collaborator, not part of the
repository). -/
def sanitize (s : Str) : Str := stripTagsAux false s

/-- Modelled from the spec: `T_ownership` is a pure join entity linking the
owning user to exactly one view (its own definition lives outside the given
source file). -/
structure T_ownership where
  IdTUser : Nat
  IdTView : Nat
deriving DecidableEq, Repr

/-- The user row (`T_user` in the source).  `sql.NullString` is modelled as
`Option Str`, `time.Time` as `Nat`, `[]byte` as `List Nat`. -/
structure T_user where
  Id : Nat
  Email : Str
  Password : Option Str
  SsoId : Option Str
  Company : Str
  Department : Str
  Created : Nat
  LastLogin : Nat
  LogoutCount : Nat
  Active : Bool
  Admin : Bool
  Name : Str
  Surname : Str
  Gender : Str
  Certificate : List Nat
  DbPasswordHash : Str
  Ownerships : List T_ownership
deriving DecidableEq, Repr

/-- `NewUser` constructs a user struct and pre-fills it with given or default
data; fields the Go literal leaves unset get Go zero values.  `time.Now()` is
passed in as `now`. -/
def NewUser (email company department name surname : Str) (now : Nat) : T_user :=
  { Id := 0
    Email := email
    Password := none
    SsoId := none
    Company := if company.length = 0 then email else company
    Department := department
    Created := now
    LastLogin := 0
    LogoutCount := 0
    Active := true
    Admin := false
    Name := name
    Surname := surname
    Gender := []
    Certificate := []
    DbPasswordHash := []
    Ownerships := [] }

/-- `BeforeSave`, the GORM hook executed on every write: sanitize and
case-normalize the mutable string fields. -/
def BeforeSave (user : T_user) : T_user :=
  { user with
    Email := toLowerStr (sanitize user.Email)
    SsoId := match user.SsoId with
      | some s => some (toUpperStr (sanitize s))
      | none => none
    Name := sanitize user.Name
    Surname := sanitize user.Surname
    Gender := (toUpperStr (sanitize user.Gender)).take 1 }

/-- Error taxonomy of the repository layer (spec §7): `Conflict` for a
unique-constraint violation on create, `InvalidEntity` for an operation on an
unpersisted identity, `StorageError` for any other backend fault. -/
inductive DbError where
  | invalidEntity
  | conflict
  | storageError
deriving DecidableEq, Repr

/-- The columns of the `users` table, as declared by the
`gorm:"column:..."` tags of the source struct; `unknown` stands for an
unrecognized column name. -/
inductive Column where
  | id | email | password | sso_id | company | department | created
  | last_login | logout_count | active | admin | name | surname | gender
  | certificate | db_password | unknown
deriving DecidableEq, Repr

/-- The declared name of each real column (the `unknown` marker has none
and is mapped to the empty string, which is not a column name). -/
def columnName : Column → Str
  | .id => str ("id")
  | .email => str ("email")
  | .password => str ("password")
  | .sso_id => str ("sso_id")
  | .company => str ("company")
  | .department => str ("department")
  | .created => str ("created")
  | .last_login => str ("last_login")
  | .logout_count => str ("logout_count")
  | .active => str ("active")
  | .admin => str ("admin")
  | .name => str ("name")
  | .surname => str ("surname")
  | .gender => str ("gender")
  | .certificate => str ("certificate")
  | .db_password => str ("db_password")
  | .unknown => []

/-- Resolve a column-name string to the column it denotes. -/
def columnOf (col : Str) : Column :=
  if col = columnName .id then .id
  else if col = columnName .email then .email
  else if col = columnName .password then .password
  else if col = columnName .sso_id then .sso_id
  else if col = columnName .company then .company
  else if col = columnName .department then .department
  else if col = columnName .created then .created
  else if col = columnName .last_login then .last_login
  else if col = columnName .logout_count then .logout_count
  else if col = columnName .active then .active
  else if col = columnName .admin then .admin
  else if col = columnName .name then .name
  else if col = columnName .surname then .surname
  else if col = columnName .gender then .gender
  else if col = columnName .certificate then .certificate
  else if col = columnName .db_password then .db_password
  else .unknown

/-- Write the value of one column from `u` into the row `r`; an
unrecognized column writes nothing. -/
def applyColumn : Column → T_user → T_user → T_user
  | .id, u, r => { r with Id := u.Id }
  | .email, u, r => { r with Email := u.Email }
  | .password, u, r => { r with Password := u.Password }
  | .sso_id, u, r => { r with SsoId := u.SsoId }
  | .company, u, r => { r with Company := u.Company }
  | .department, u, r => { r with Department := u.Department }
  | .created, u, r => { r with Created := u.Created }
  | .last_login, u, r => { r with LastLogin := u.LastLogin }
  | .logout_count, u, r => { r with LogoutCount := u.LogoutCount }
  | .active, u, r => { r with Active := u.Active }
  | .admin, u, r => { r with Admin := u.Admin }
  | .name, u, r => { r with Name := u.Name }
  | .surname, u, r => { r with Surname := u.Surname }
  | .gender, u, r => { r with Gender := u.Gender }
  | .certificate, u, r => { r with Certificate := u.Certificate }
  | .db_password, u, r => { r with DbPasswordHash := u.DbPasswordHash }
  | .unknown, _, r => r

/-- Write the value of one named column from `u` into the row `r`. -/
def setColumn (col : Str) (u r : T_user) : T_user :=
  applyColumn (columnOf col) u r

/-- Apply a column list to a row: each selected column takes its current
in-memory value from `u`, even when that value is zero/empty/false. -/
def applyColumns (cols : List Str) (u r : T_user) : T_user :=
  cols.foldl (fun acc c => setColumn c u acc) r

/-- The relational store: a list of user rows. -/
abbrev Store := List T_user

/-- `Save` updates the selected columns of the row whose id matches
`user.Id` (GORM `Select(columns...).Save(user)`), running the `BeforeSave`
hook first; it returns the new store, the number of rows affected and an
optional error.  An empty column list is a no-op; id `0` is rejected;
`fault` stands for a backend fault of the update itself. -/
def Save (fault : Bool) (store : Store) (user : T_user) (columns : List Str) :
    Store × Nat × Option DbError :=
  if columns.length < 1 then (store, 0, none)
  else if user.Id = 0 then (store, 0, some .invalidEntity)
  else if fault then (store, 0, some .storageError)
  else
    ((store.map fun r =>
        if r.Id = user.Id then applyColumns columns (BeforeSave user) r else r),
     (store.filter fun r => r.Id = user.Id).length,
     none)

/-- Decidable check for a unique-constraint conflict: some stored row has the
same `email`, or the same `sso_id` when both are present (`sql.NullString`
with `unique`: SQL NULLs never conflict). -/
def hasConflict (store : Store) (u : T_user) : Bool :=
  store.any fun r =>
    r.Email == u.Email || (r.SsoId == u.SsoId && !(r.SsoId == none))

/-- Fresh surrogate key assigned by the storage layer on insert. -/
def freshId (store : Store) : Nat :=
  (store.map T_user.Id).foldl max 0 + 1

/-- `Create` persists a new user (GORM `Create`), running the `BeforeSave`
hook first.  Modelled from the spec and the declared schema: the storage
layer rejects a duplicate `email`/`sso_id` with a `Conflict`
(unique-constraint violation) and any other backend fault (`fault`) with a
`StorageError`; the repository returns the storage error unchanged in kind. -/
def Create (fault : Bool) (store : Store) (user : T_user) :
    Store × Option DbError :=
  if hasConflict store (BeforeSave user) then (store, some .conflict)
  else if fault then (store, some .storageError)
  else (store ++ [{ BeforeSave user with Id := freshId store }], none)

/-- `GetUser` searches a user by id (eagerly loaded relations are already
part of the row in this model); when no row matches it returns a nil
pointer (`none`) and a nil error. -/
def GetUser (fault : Bool) (store : Store) (id : Nat) :
    Option T_user × Option DbError :=
  if fault then (none, some .storageError)
  else
    match (store.filter fun r => r.Id = id).take 1 with
    | [] => (none, none)
    | e :: _ => (some e, none)

/-- `GetUserByMail` lower-cases the queried mail first (mirroring persisted
normalization) and searches by email; when no row matches it returns a nil
pointer (`none`) and a nil error. -/
def GetUserByMail (fault : Bool) (store : Store) (mail : Str) :
    Option T_user × Option DbError :=
  if fault then (none, some .storageError)
  else
    match (store.filter fun r => r.Email = toLowerStr mail).take 1 with
    | [] => (none, none)
    | e :: _ => (some e, none)

/-- One field of the external (JSON) representation. -/
inductive JVal where
  | num (n : Nat)
  | s (v : Str)
  | b (v : Bool)
  | bytes (v : List Nat)
  | owns (v : List T_ownership)
deriving DecidableEq, Repr

/-- The external JSON representation of a user: the fields of `T_user` in
declaration order under their declared lower-case json names, with every
field tagged `json:"-"` in the source (`Password`, `SsoId`, `LogoutCount`,
`DbPasswordHash`) omitted. -/
def marshalJson (u : T_user) : List (Str × JVal) :=
  [ (str "id", .num u.Id)
  , (str "email", .s u.Email)
  , (str "company", .s u.Company)
  , (str "department", .s u.Department)
  , (str "created", .num u.Created)
  , (str "last_login", .num u.LastLogin)
  , (str "active", .b u.Active)
  , (str "admin", .b u.Admin)
  , (str "name", .s u.Name)
  , (str "surname", .s u.Surname)
  , (str "gender", .s u.Gender)
  , (str "certificate", .bytes u.Certificate)
  , (str "ownerships", .owns u.Ownerships) ]

/-- Sample persisted row used in concrete checks. -/
def u0 : T_user :=
  { Id := 1
    Email := str ("jane@acme.org")
    Password := none
    SsoId := none
    Company := str ("acme")
    Department := []
    Created := 0
    LastLogin := 0
    LogoutCount := 0
    Active := true
    Admin := false
    Name := str ("Jane")
    Surname := str ("Doe")
    Gender := []
    Certificate := []
    DbPasswordHash := []
    Ownerships := [] }

theorem lowerN_idem (c : Nat) : lowerN (lowerN c) = lowerN c := by
  unfold lowerN; split_ifs <;> omega

theorem upperN_idem (c : Nat) : upperN (upperN c) = upperN c := by
  unfold upperN; split_ifs <;> omega

theorem upperN_congr_of_lowerN (c d : Nat) (h : lowerN c = lowerN d) :
    upperN c = upperN d := by
  unfold lowerN at h; unfold upperN; split_ifs at h ⊢ <;> omega

theorem lowerN_eq60_iff (c : Nat) : lowerN c = 60 ↔ c = 60 := by
  unfold lowerN; split_ifs <;> omega

theorem lowerN_eq62_iff (c : Nat) : lowerN c = 62 ↔ c = 62 := by
  unfold lowerN; split_ifs <;> omega

theorem upperN_eq60_iff (c : Nat) : upperN c = 60 ↔ c = 60 := by
  unfold upperN; split_ifs <;> omega

theorem upperN_eq62_iff (c : Nat) : upperN c = 62 ↔ c = 62 := by
  unfold upperN; split_ifs <;> omega

theorem stripTagsAux_not_mem_60 (s : Str) : ∀ b, 60 ∉ stripTagsAux b s := by
  induction s with
  | nil => intro b; cases b <;> simp [stripTagsAux]
  | cons c rest ih =>
    intro b
    cases b with
    | false =>
      by_cases hc : c = 60
      · simpa [stripTagsAux, hc] using ih true
      · simp only [stripTagsAux, if_neg hc, List.mem_cons, not_or]
        exact ⟨fun e => hc e.symm, ih false⟩
    | true =>
      by_cases hc : c = 62
      · simpa [stripTagsAux, hc] using ih false
      · simpa [stripTagsAux, hc] using ih true

theorem stripTagsAux_false_of_not_mem_60 (s : Str) (h : 60 ∉ s) :
    stripTagsAux false s = s := by
  induction s with
  | nil => rfl
  | cons c rest ih =>
    have hc : c ≠ 60 := fun e => h (by simp [e])
    have hr : 60 ∉ rest := fun e => h (List.mem_cons_of_mem _ e)
    simp [stripTagsAux, hc, ih hr]

theorem sanitize_eq_self_of_not_mem60 (s : Str) (h : 60 ∉ s) : sanitize s = s :=
  stripTagsAux_false_of_not_mem_60 s h

theorem sanitize_idem (s : Str) : sanitize (sanitize s) = sanitize s :=
  sanitize_eq_self_of_not_mem60 _ (stripTagsAux_not_mem_60 s false)

theorem stripTagsAux_map (f : Nat → Nat) (h60 : ∀ c, f c = 60 ↔ c = 60)
    (h62 : ∀ c, f c = 62 ↔ c = 62) (s : Str) :
    ∀ b, stripTagsAux b (s.map f) = (stripTagsAux b s).map f := by
  induction s with
  | nil => intro b; cases b <;> rfl
  | cons c rest ih =>
    intro b
    cases b with
    | false =>
      by_cases hc : c = 60
      · have hf : f c = 60 := (h60 c).mpr hc
        simp only [List.map_cons, stripTagsAux, if_pos hf, if_pos hc]
        exact ih true
      · have hf : f c ≠ 60 := fun e => hc ((h60 c).mp e)
        simp only [List.map_cons, stripTagsAux, if_neg hf, if_neg hc]
        simp [ih false]
    | true =>
      by_cases hc : c = 62
      · have hf : f c = 62 := (h62 c).mpr hc
        simp only [List.map_cons, stripTagsAux, if_pos hf, if_pos hc]
        exact ih false
      · have hf : f c ≠ 62 := fun e => hc ((h62 c).mp e)
        simp only [List.map_cons, stripTagsAux, if_neg hf, if_neg hc]
        exact ih true

theorem stripTagsAux_lower_congr :
    ∀ s t : Str, s.map lowerN = t.map lowerN →
      ∀ b, (stripTagsAux b s).map lowerN = (stripTagsAux b t).map lowerN := by
  intro s
  induction s with
  | nil =>
    intro t h b
    cases t with
    | nil => rfl
    | cons d tt => simp at h
  | cons c ss ih =>
    intro t h b
    cases t with
    | nil => simp at h
    | cons d tt =>
      simp only [List.map_cons, List.cons.injEq] at h
      obtain ⟨h1, h2⟩ := h
      cases b with
      | false =>
        by_cases hc : c = 60
        · have hd : d = 60 :=
            (lowerN_eq60_iff d).mp (h1 ▸ (lowerN_eq60_iff c).mpr hc)
          simp only [stripTagsAux, if_pos hc, if_pos hd]
          exact ih tt h2 true
        · have hd : d ≠ 60 :=
            fun e => hc ((lowerN_eq60_iff c).mp (h1.trans ((lowerN_eq60_iff d).mpr e)))
          simp only [stripTagsAux, if_neg hc, if_neg hd, List.map_cons]
          rw [h1, ih tt h2 false]
      | true =>
        by_cases hc : c = 62
        · have hd : d = 62 :=
            (lowerN_eq62_iff d).mp (h1 ▸ (lowerN_eq62_iff c).mpr hc)
          simp only [stripTagsAux, if_pos hc, if_pos hd]
          exact ih tt h2 false
        · have hd : d ≠ 62 :=
            fun e => hc ((lowerN_eq62_iff c).mp (h1.trans ((lowerN_eq62_iff d).mpr e)))
          simp only [stripTagsAux, if_neg hc, if_neg hd]
          exact ih tt h2 true

theorem map_upperN_congr :
    ∀ s t : Str, s.map lowerN = t.map lowerN → s.map upperN = t.map upperN := by
  intro s
  induction s with
  | nil =>
    intro t h
    cases t with
    | nil => rfl
    | cons d tt => simp at h
  | cons c ss ih =>
    intro t h
    cases t with
    | nil => simp at h
    | cons d tt =>
      simp only [List.map_cons, List.cons.injEq] at h ⊢
      exact ⟨upperN_congr_of_lowerN c d h.1, ih tt h.2⟩

theorem map_lowerN_idem (s : Str) : (s.map lowerN).map lowerN = s.map lowerN := by
  induction s with
  | nil => rfl
  | cons c rest ih => simp [lowerN_idem, ih]

theorem map_upperN_idem (s : Str) : (s.map upperN).map upperN = s.map upperN := by
  induction s with
  | nil => rfl
  | cons c rest ih => simp [upperN_idem, ih]

theorem not_mem60_map_lowerN (s : Str) (h : 60 ∉ s) : 60 ∉ s.map lowerN := by
  intro hc
  obtain ⟨c, hcs, hce⟩ := List.mem_map.mp hc
  exact h (((lowerN_eq60_iff c).mp hce) ▸ hcs)

theorem not_mem60_map_upperN (s : Str) (h : 60 ∉ s) : 60 ∉ s.map upperN := by
  intro hc
  obtain ⟨c, hcs, hce⟩ := List.mem_map.mp hc
  exact h (((upperN_eq60_iff c).mp hce) ▸ hcs)

theorem lower_sanitize_idem (s : Str) :
    toLowerStr (sanitize (toLowerStr (sanitize s))) = toLowerStr (sanitize s) := by
  have h1 : 60 ∉ toLowerStr (sanitize s) :=
    not_mem60_map_lowerN _ (stripTagsAux_not_mem_60 s false)
  rw [sanitize_eq_self_of_not_mem60 _ h1]
  simpa [toLowerStr] using map_lowerN_idem (sanitize s)

theorem upper_sanitize_idem (s : Str) :
    toUpperStr (sanitize (toUpperStr (sanitize s))) = toUpperStr (sanitize s) := by
  have h1 : 60 ∉ toUpperStr (sanitize s) :=
    not_mem60_map_upperN _ (stripTagsAux_not_mem_60 s false)
  rw [sanitize_eq_self_of_not_mem60 _ h1]
  simpa [toUpperStr] using map_upperN_idem (sanitize s)

theorem gender_norm_idem (s : Str) :
    (toUpperStr (sanitize ((toUpperStr (sanitize s)).take 1))).take 1
      = (toUpperStr (sanitize s)).take 1 := by
  have h0 : 60 ∉ toUpperStr (sanitize s) :=
    not_mem60_map_upperN _ (stripTagsAux_not_mem_60 s false)
  have h1 : 60 ∉ (toUpperStr (sanitize s)).take 1 :=
    fun hm => h0 (List.take_subset 1 _ hm)
  rw [sanitize_eq_self_of_not_mem60 _ h1]
  have h2 : toUpperStr ((toUpperStr (sanitize s)).take 1)
      = (toUpperStr (sanitize s)).take 1 := by
    simp only [toUpperStr, ← List.map_take]
    rw [List.map_take, List.map_take, map_upperN_idem]
  rw [h2, List.take_take]
  norm_num

theorem toUpperStr_take1_upper (x : Str) :
    toUpperStr ((toUpperStr x).take 1) = (toUpperStr x).take 1 := by
  simp only [toUpperStr]
  rw [List.map_take, map_upperN_idem]

/-- C1: for every fault flag, store state and user, calling `Save` with an
empty column list returns affected-count 0 and no error, and performs no
write: the store is unchanged. -/
theorem save_empty_columns_noop (fault : Bool) (store : Store) (user : T_user) :
    Save fault store user [] = (store, 0, none) := by
  simp [Save]

/-- C2: for every user whose numeric key is 0 and every non-empty column
list, `Save` fails with the invalid-entity error, returns affected-count 0
and performs no write. -/
theorem save_zero_id_invalid_entity (fault : Bool) (store : Store) (user : T_user)
    (cols : List Str) (h0 : user.Id = 0) (hc : cols ≠ []) :
    Save fault store user cols = (store, 0, some DbError.invalidEntity) := by
  have hlen : ¬ cols.length < 1 := by
    cases cols with
    | nil => exact absurd rfl hc
    | cons a l => simp
  simp [Save, hlen, h0]

theorem save_zero_id_invalid_entity_witness :
    Save false [] (NewUser (str ("a@b")) [] [] [] [] 0) [str ("active")] =
      ([], 0, some DbError.invalidEntity) :=
  save_zero_id_invalid_entity false [] _ _ (by decide) (by decide)

/-- C3: the external JSON representation of a user never includes the
password hash, the generated DB-credential hash, the SSO id or the logout
counter; two users differing only in those fields have the same external
representation. -/
theorem marshal_excludes_sensitive_fields (u : T_user) (p s : Option Str)
    (l : Nat) (d : Str) :
    marshalJson { u with Password := p, SsoId := s, LogoutCount := l, DbPasswordHash := d }
      = marshalJson u ∧
    str ("password") ∉ (marshalJson u).map Prod.fst ∧
    str ("sso_id") ∉ (marshalJson u).map Prod.fst ∧
    str ("logout_count") ∉ (marshalJson u).map Prod.fst ∧
    str ("db_password") ∉ (marshalJson u).map Prod.fst := by
  refine ⟨rfl, ?_, ?_, ?_, ?_⟩ <;>
    · simp only [marshalJson, List.map_cons, List.map_nil]
      decide

/-- C4: `BeforeSave` folds the email to lower case and, when present, the
SSO id to upper case; therefore two email inputs (or two SSO-id inputs)
differing only in ASCII letter case never produce distinct persisted
values. -/
theorem beforesave_case_folding (u : T_user) (e1 e2 s1 s2 : Str) :
    ((BeforeSave u).Email = toLowerStr (sanitize u.Email)) ∧
    (∀ s, u.SsoId = some s → (BeforeSave u).SsoId = some (toUpperStr (sanitize s))) ∧
    (toLowerStr e1 = toLowerStr e2 →
      toLowerStr (sanitize e1) = toLowerStr (sanitize e2)) ∧
    (toLowerStr s1 = toLowerStr s2 →
      toUpperStr (sanitize s1) = toUpperStr (sanitize s2)) := by
  refine ⟨rfl, ?_, ?_, ?_⟩
  · intro s hs
    simp [BeforeSave, hs]
  · intro h
    exact stripTagsAux_lower_congr e1 e2 h false
  · intro h
    exact map_upperN_congr _ _ (stripTagsAux_lower_congr s1 s2 h false)

theorem beforesave_case_folding_witness :
    ((BeforeSave u0).Email = toLowerStr (sanitize u0.Email)) ∧
    (BeforeSave { u0 with SsoId := some (str ("abc-123")) }).SsoId
        = some (toUpperStr (sanitize (str ("abc-123")))) ∧
    toLowerStr (sanitize (str ("User@Example.COM")))
        = toLowerStr (sanitize (str ("user@example.com"))) ∧
    toUpperStr (sanitize (str ("abc-123")))
        = toUpperStr (sanitize (str ("ABC-123"))) :=
  ⟨(beforesave_case_folding u0 [] [] [] []).1,
   (beforesave_case_folding { u0 with SsoId := some (str ("abc-123")) } [] [] [] []).2.1
      _ rfl,
   (beforesave_case_folding u0 (str ("User@Example.COM")) (str ("user@example.com"))
      [] []).2.2.1 (by decide),
   (beforesave_case_folding u0 [] [] (str ("abc-123")) (str ("ABC-123"))).2.2.2
      (by decide)⟩

/-- C5: the sanitization step is idempotent: applying `BeforeSave` twice
yields exactly the same user as applying it once. -/
theorem beforesave_idempotent (u : T_user) :
    BeforeSave (BeforeSave u) = BeforeSave u := by
  cases h : u.SsoId with
  | none =>
    simp [BeforeSave, h, lower_sanitize_idem, sanitize_idem, gender_norm_idem]
  | some s =>
    simp [BeforeSave, h, lower_sanitize_idem, sanitize_idem, gender_norm_idem,
      upper_sanitize_idem]

/-- C6: sanitization normalizes the gender to the first character of the
upper-cased, markup-stripped input: the result has length at most one, is
fixed by upper-casing, and on the spec examples `"Diverse"` becomes `"D"`
while `""` stays `""`. -/
theorem gender_normalization (u : T_user) :
    ((BeforeSave u).Gender = (toUpperStr (sanitize u.Gender)).take 1) ∧
    (BeforeSave u).Gender.length ≤ 1 ∧
    toUpperStr (BeforeSave u).Gender = (BeforeSave u).Gender ∧
    (BeforeSave { u with Gender := str ("Diverse") }).Gender = str ("D") ∧
    (BeforeSave { u with Gender := [] }).Gender = [] := by
  refine ⟨rfl, ?_, ?_, ?_, ?_⟩
  · simp [BeforeSave, List.length_take]
  · exact toUpperStr_take1_upper (sanitize u.Gender)
  · show (toUpperStr (sanitize (str ("Diverse")))).take 1 = str ("D")
    decide
  · show (toUpperStr (sanitize ([] : Str))).take 1 = []
    decide

/-- C7: a user constructed by `NewUser` with an empty company argument gets
the email as its company; with a non-empty company argument it keeps that
company. -/
theorem newuser_company_default (e c d n s : Str) (t : Nat) :
    (c = [] → (NewUser e c d n s t).Company = e) ∧
    (c ≠ [] → (NewUser e c d n s t).Company = c) := by
  constructor
  · intro h
    simp [NewUser, h]
  · intro h
    simp [NewUser, List.length_eq_zero, h]

theorem newuser_company_default_witness :
    (NewUser (str ("a@b")) [] [] [] [] 0).Company = str ("a@b") ∧
    (NewUser (str ("a@b")) (str ("acme")) [] [] [] 0).Company = str ("acme") :=
  ⟨(newuser_company_default (str ("a@b")) [] [] [] [] 0).1 rfl,
   (newuser_company_default (str ("a@b")) (str ("acme")) [] [] [] 0).2 (by decide)⟩

theorem columnOf_eq_company (col : Str) (h : columnOf col = Column.company) :
    col = columnName Column.company := by
  unfold columnOf at h
  by_cases h1 : col = columnName .id
  · rw [if_pos h1] at h; exact Column.noConfusion h
  rw [if_neg h1] at h
  by_cases h2 : col = columnName .email
  · rw [if_pos h2] at h; exact Column.noConfusion h
  rw [if_neg h2] at h
  by_cases h3 : col = columnName .password
  · rw [if_pos h3] at h; exact Column.noConfusion h
  rw [if_neg h3] at h
  by_cases h4 : col = columnName .sso_id
  · rw [if_pos h4] at h; exact Column.noConfusion h
  rw [if_neg h4] at h
  by_cases h5 : col = columnName .company
  · exact h5
  rw [if_neg h5] at h
  by_cases h6 : col = columnName .department
  · rw [if_pos h6] at h; exact Column.noConfusion h
  rw [if_neg h6] at h
  by_cases h7 : col = columnName .created
  · rw [if_pos h7] at h; exact Column.noConfusion h
  rw [if_neg h7] at h
  by_cases h8 : col = columnName .last_login
  · rw [if_pos h8] at h; exact Column.noConfusion h
  rw [if_neg h8] at h
  by_cases h9 : col = columnName .logout_count
  · rw [if_pos h9] at h; exact Column.noConfusion h
  rw [if_neg h9] at h
  by_cases h10 : col = columnName .active
  · rw [if_pos h10] at h; exact Column.noConfusion h
  rw [if_neg h10] at h
  by_cases h11 : col = columnName .admin
  · rw [if_pos h11] at h; exact Column.noConfusion h
  rw [if_neg h11] at h
  by_cases h12 : col = columnName .name
  · rw [if_pos h12] at h; exact Column.noConfusion h
  rw [if_neg h12] at h
  by_cases h13 : col = columnName .surname
  · rw [if_pos h13] at h; exact Column.noConfusion h
  rw [if_neg h13] at h
  by_cases h14 : col = columnName .gender
  · rw [if_pos h14] at h; exact Column.noConfusion h
  rw [if_neg h14] at h
  by_cases h15 : col = columnName .certificate
  · rw [if_pos h15] at h; exact Column.noConfusion h
  rw [if_neg h15] at h
  by_cases h16 : col = columnName .db_password
  · rw [if_pos h16] at h; exact Column.noConfusion h
  rw [if_neg h16] at h
  exact Column.noConfusion h

theorem setColumn_company_of_ne (col : Str) (u r : T_user)
    (h : col ≠ str ("company")) : (setColumn col u r).Company = r.Company := by
  unfold setColumn
  cases hc : columnOf col with
  | company => exact absurd (columnOf_eq_company col hc) h
  | _ => rfl

theorem setColumn_company_or (col : Str) (u r : T_user) :
    (setColumn col u r).Company = r.Company ∨
      (setColumn col u r).Company = u.Company := by
  unfold setColumn
  cases columnOf col with
  | company => exact Or.inr rfl
  | _ => exact Or.inl rfl

theorem applyColumns_cons (c : Str) (cs : List Str) (u r : T_user) :
    applyColumns (c :: cs) u r = applyColumns cs u (setColumn c u r) := rfl

theorem applyColumns_company_of_not_mem (cols : List Str) (u : T_user) :
    ∀ r, str ("company") ∉ cols → (applyColumns cols u r).Company = r.Company := by
  induction cols with
  | nil => intro r h; rfl
  | cons c cs ih =>
    intro r h
    have hc : c ≠ str ("company") := fun e => h (by simp [e])
    have hcs : str ("company") ∉ cs := fun m => h (List.mem_cons_of_mem _ m)
    rw [applyColumns_cons, ih (setColumn c u r) hcs, setColumn_company_of_ne c u r hc]

theorem applyColumns_company_or (cols : List Str) (u : T_user) :
    ∀ r, (applyColumns cols u r).Company = r.Company ∨
         (applyColumns cols u r).Company = u.Company := by
  induction cols with
  | nil => intro r; exact Or.inl rfl
  | cons c cs ih =>
    intro r
    rw [applyColumns_cons]
    rcases ih (setColumn c u r) with h | h
    · rw [h]; exact setColumn_company_or c u r
    · exact Or.inr h

theorem beforeSave_company (u : T_user) : (BeforeSave u).Company = u.Company := rfl

theorem save_store_cases (fault : Bool) (store : Store) (user : T_user)
    (cols : List Str) (r' : T_user) (hr' : r' ∈ (Save fault store user cols).1) :
    r' ∈ store ∨ ∃ r ∈ store, r' = applyColumns cols (BeforeSave user) r := by
  unfold Save at hr'
  split_ifs at hr' with h1 h2 h3
  · exact Or.inl hr'
  · exact Or.inl hr'
  · exact Or.inl hr'
  · obtain ⟨r, hr, hmap⟩ := List.mem_map.mp hr'
    by_cases hid : r.Id = user.Id
    · exact Or.inr ⟨r, hr, by rw [← hmap, if_pos hid]⟩
    · refine Or.inl ?_
      rw [← hmap, if_neg hid]
      exact hr

/-- C8 counterexample: `NewUser` called with an empty email and an empty
company yields an empty company, and `Save` selecting the `company` column
of a user whose in-memory company is empty writes an empty company into a
previously non-empty row — so company non-emptiness is neither established
by every creation nor preserved by every partial update. -/
theorem company_nonempty_cx :
    (NewUser [] [] [] [] [] 0).Company = [] ∧
    Save false [u0] { u0 with Company := [] } [str ("company")] =
      ([{ u0 with Company := [] }], 1, none) := by
  constructor
  · rfl
  · decide

/-- C8 amended: a user produced by `NewUser` has a non-empty company
whenever the email argument or the company argument is non-empty, and
`Save` preserves company non-emptiness of every stored row whenever the
`company` column is not among the updated columns or the in-memory company
is non-empty. -/
theorem company_nonempty_amended :
    (∀ e c d n s : Str, ∀ t : Nat, e ≠ [] ∨ c ≠ [] →
      (NewUser e c d n s t).Company ≠ []) ∧
    (∀ (fault : Bool) (store : Store) (user : T_user) (cols : List Str),
      (∀ r ∈ store, r.Company ≠ []) →
      (str ("company") ∉ cols ∨ user.Company ≠ []) →
      ∀ r' ∈ (Save fault store user cols).1, r'.Company ≠ []) := by
  constructor
  · intro e c d n s t he
    simp only [NewUser]
    split_ifs with h
    · rcases he with he | hc
      · exact he
      · exact absurd (List.length_eq_zero.mp h) hc
    · exact fun e2 => h (by simp [e2])
  · intro fault store user cols hstore hcomp r' hr'
    rcases save_store_cases fault store user cols r' hr' with h | ⟨r, hr, rfl⟩
    · exact hstore r' h
    · rcases hcomp with hnot | hne
      · rw [applyColumns_company_of_not_mem cols _ r hnot]
        exact hstore r hr
      · rcases applyColumns_company_or cols (BeforeSave user) r with h | h
        · rw [h]; exact hstore r hr
        · rw [h, beforeSave_company]; exact hne

theorem company_nonempty_amended_witness :
    (NewUser (str ("x@y")) [] [] [] [] 0).Company ≠ [] ∧
    (NewUser [] (str ("acme")) [] [] [] 0).Company ≠ [] ∧
    (∀ r' ∈ (Save false [u0] u0 [str ("active")]).1, r'.Company ≠ []) :=
  ⟨company_nonempty_amended.1 (str ("x@y")) [] [] [] [] 0 (Or.inl (by decide)),
   company_nonempty_amended.1 [] (str ("acme")) [] [] [] 0 (Or.inr (by decide)),
   company_nonempty_amended.2 false [u0] u0 [str ("active")] (by decide)
     (Or.inl (by decide))⟩

theorem hasConflict_iff (store : Store) (u : T_user) :
    hasConflict store u = true ↔
      ∃ r ∈ store, r.Email = u.Email ∨ (r.SsoId = u.SsoId ∧ r.SsoId ≠ none) := by
  simp [hasConflict, List.any_eq_true, Bool.or_eq_true, Bool.and_eq_true,
    beq_iff_eq, Bool.not_eq_true', beq_eq_false_iff_ne]

/-- C9: `Create` fails with a conflict when the (sanitized) email or SSO id
already exists in the store, fails with a storage error on any other
backend fault, and the conflict condition is distinct in kind from the
other error conditions. -/
theorem create_conflict_classification (fault : Bool) (store : Store) (user : T_user) :
    ((∃ r ∈ store, r.Email = (BeforeSave user).Email ∨
        (r.SsoId = (BeforeSave user).SsoId ∧ r.SsoId ≠ none)) →
      Create fault store user = (store, some DbError.conflict)) ∧
    (¬(∃ r ∈ store, r.Email = (BeforeSave user).Email ∨
        (r.SsoId = (BeforeSave user).SsoId ∧ r.SsoId ≠ none)) → fault = true →
      Create fault store user = (store, some DbError.storageError)) ∧
    DbError.conflict ≠ DbError.storageError ∧
    DbError.conflict ≠ DbError.invalidEntity := by
  refine ⟨?_, ?_, by decide, by decide⟩
  · intro h
    have hb : hasConflict store (BeforeSave user) = true := (hasConflict_iff _ _).mpr h
    simp [Create, hb]
  · intro h hf
    have hb : hasConflict store (BeforeSave user) = false := by
      cases hcb : hasConflict store (BeforeSave user) with
      | false => rfl
      | true => exact absurd ((hasConflict_iff _ _).mp hcb) h
    simp [Create, hb, hf]

theorem create_conflict_classification_witness :
    Create false [u0] u0 = ([u0], some DbError.conflict) ∧
    Create true [] u0 = ([], some DbError.storageError) :=
  ⟨(create_conflict_classification false [u0] u0).1 ⟨u0, by decide, Or.inl (by decide)⟩,
   (create_conflict_classification true [] u0).2.1 (by decide) rfl⟩

/-- C10: when no row matches, `GetUser` and `GetUserByMail` (the latter
matching against the lower-cased query) return a nil user together with a
nil error — an explicit not-found result, never an error value. -/
theorem get_not_found_nil_nil (store : Store) (id : Nat) (mail : Str)
    (h1 : ∀ r ∈ store, r.Id ≠ id) (h2 : ∀ r ∈ store, r.Email ≠ toLowerStr mail) :
    GetUser false store id = (none, none) ∧
    GetUserByMail false store mail = (none, none) := by
  constructor
  · have e1 : (store.filter fun r => r.Id = id) = [] := by
      rw [List.filter_eq_nil_iff]
      intro r hr
      simpa using h1 r hr
    simp [GetUser, e1]
  · have e2 : (store.filter fun r => r.Email = toLowerStr mail) = [] := by
      rw [List.filter_eq_nil_iff]
      intro r hr
      simpa using h2 r hr
    simp [GetUserByMail, e2]

theorem get_not_found_nil_nil_witness :
    GetUser false [u0] 99 = (none, none) ∧
    GetUserByMail false [u0] (str ("zz@zz")) = (none, none) :=
  get_not_found_nil_nil [u0] 99 (str ("zz@zz")) (by decide) (by decide)
